import Mathlib

/-!
Verification of the MCP stdio proxy bridge
(`demos/GrocerySreDemo/infrastructure/amg_mcp_http_proxy_server.py`).

The development shallowly embeds the pure content of the bridge:

* the framed channel (`McpStdioClient._send` / `McpStdioClient._read_message`),
  modelled over byte lists (`List Nat`, each element a byte value);
* the JSON-RPC correlation loop (`McpStdioClient.request`);
* the backend supervisor (`_get_backend`, `_reset_backend`,
  `_backend_tool_call_safe`), modelled as explicit state passing where the
  cached session is identified by a freshness counter;
* capability filtering (`AmgMcpBackend.tool_call`);
* the datasource-list cache (`_cached_datasource_list`);
* the query router (`amgmcp_query_datasource`, `amgmcp_datasource_list`,
  `amgmcp_image_render`), with environment toggles passed in as the raw
  optional strings that `_env_bool` would read.

Timeouts are modelled by truncation: a read is given the bytes (or messages)
that become available before the deadline; exhausting them without completing
a message is the `TimeoutError` path of the source.
-/

namespace AmgProxy

/-! ## Byte-level helpers shared by the framed channel -/

/-- ASCII bytes of `"Content-Length: "`, the header prefix emitted by
`McpStdioClient._send`. -/
def clHeaderBytes : List Nat :=
  [67, 111, 110, 116, 101, 110, 116, 45, 76, 101, 110, 103, 116, 104, 58, 32]

/-- ASCII bytes of `"content-length:"`, the lower-cased header name matched by
`McpStdioClient._read_message`. -/
def clLowerBytes : List Nat :=
  [99, 111, 110, 116, 101, 110, 116, 45, 108, 101, 110, 103, 116, 104, 58]

/-- CRLF-CRLF separator bytes. -/
def crlfcrlf : List Nat := [13, 10, 13, 10]

/-- Decimal digits (ASCII bytes) of a natural number, most significant first;
models Python's `str(n)`/`f"{n}"` formatting of a nonnegative length. -/
def natDigits (n : Nat) : List Nat :=
  if n < 10 then [48 + n] else natDigits (n / 10) ++ [48 + n % 10]
termination_by n
decreasing_by
  simp_wf
  exact Nat.div_lt_self (by omega) (by omega)

/-- Bytes written by `McpStdioClient._send` for a serialized body:
`Content-Length: <n>\r\n\r\n` followed by exactly the body bytes. -/
def writeHead (n : Nat) : List Nat :=
  clHeaderBytes ++ natDigits n ++ crlfcrlf

/-- Full frame for a body, as written by `McpStdioClient._send`. -/
def writeFrame (body : List Nat) : List Nat :=
  writeHead body.length ++ body

/-- First index at which `pat` occurs in `l` (Python `bytes.find`). -/
def findSub (pat : List Nat) : List Nat → Option Nat
  | [] => if pat.isPrefixOf ([] : List Nat) then some 0 else none
  | a :: t =>
    if pat.isPrefixOf (a :: t) then some 0
    else (findSub pat t).map (· + 1)

/-- Header/body separator search of `_read_message._find_header_end`: prefer
CRLF-CRLF framing, accept LF-LF; returns the separator index and its length. -/
def findHeaderEnd (buf : List Nat) : Option (Nat × Nat) :=
  match findSub crlfcrlf buf with
  | some i => some (i, 4)
  | none =>
    match findSub [10, 10] buf with
    | some i => some (i, 2)
    | none => none

/-- Python `bytes.replace(b"\r\n", b"\n")` (left-to-right, non-overlapping). -/
def replaceCRLF : List Nat → List Nat
  | [] => []
  | [a] => [a]
  | a :: b :: t =>
    if a = 13 ∧ b = 10 then 10 :: replaceCRLF t
    else a :: replaceCRLF (b :: t)

/-- Python `bytes.split(sep)` for a single-byte separator. -/
def splitOnByte (c : Nat) : List Nat → List (List Nat)
  | [] => [[]]
  | a :: t =>
    if a = c then [] :: splitOnByte c t
    else
      match splitOnByte c t with
      | [] => [[a]]
      | h :: r => (a :: h) :: r

/-- Python `bytes.lower` on a single byte (ASCII `A`-`Z` shifted down). -/
def lowerByte (b : Nat) : Nat :=
  if 65 ≤ b ∧ b ≤ 90 then b + 32 else b

/-- ASCII whitespace recognised by Python `bytes.strip()`. -/
def isSpaceByte (b : Nat) : Bool :=
  b = 32 || b = 9 || b = 10 || b = 11 || b = 12 || b = 13

/-- Python `bytes.strip()` (both ends, ASCII whitespace). -/
def stripBytes (l : List Nat) : List Nat :=
  ((l.dropWhile isSpaceByte).reverse.dropWhile isSpaceByte).reverse

/-- Everything after the first colon: `line.split(b":", 1)[1]`.  The source
indexes `[1]` only on lines guarded to start (case-insensitively) with
`content-length:`, so a colon is always present there. -/
def afterColon : List Nat → List Nat
  | [] => []
  | a :: t => if a = 58 then t else afterColon t

/-- ASCII decimal digit test. -/
def isDigitByte (b : Nat) : Bool := 48 ≤ b && b ≤ 57

/-- Python `int(bytes)` for the nonnegative decimal forms produced by the
channel's own `Write`; any failing parse (which would raise `ValueError` in
the source) is `none`. -/
def parseNatBytes (l : List Nat) : Option Nat :=
  if l = [] then none
  else if l.all isDigitByte then
    some (l.foldl (fun acc b => acc * 10 + (b - 48)) 0)
  else none

/-- Content-Length extraction of `_read_message`: normalise CRLF to LF, split
into lines, take the first line whose lower-casing starts with
`content-length:`, and parse the integer after the colon.  `none` models the
`ValueError` paths (missing header, unparsable integer). -/
def parseContentLength (headerBlob : List Nat) : Option Nat :=
  match (splitOnByte 10 (replaceCRLF headerBlob)).find?
      (fun line => clLowerBytes.isPrefixOf (line.map lowerByte)) with
  | some line => parseNatBytes (stripBytes (afterColon line))
  | none => none

/-- Failure taxonomy of `_read_message`: `timeout` for the deadline elapsing
(`TimeoutError`), `framing` for a missing/unparsable length header
(`ValueError`). -/
inductive ReadErr where
  | timeout
  | framing
deriving DecidableEq, Repr

/-- One `_read_message` call, given `buf` = recv buffer plus every byte that
becomes available on the pipe before the deadline (after which the stream
stalls).  Returns the decoded body bytes and the bytes left buffered for the
next read; an incomplete separator or body is the `TimeoutError` path. -/
def readMessagePure (buf : List Nat) : Except ReadErr (List Nat × List Nat) :=
  match findHeaderEnd buf with
  | none => .error .timeout
  | some (i, sep) =>
    match parseContentLength (buf.take i) with
    | none => .error .framing
    | some n =>
      if (buf.drop (i + sep)).length < n then .error .timeout
      else .ok ((buf.drop (i + sep)).take n, (buf.drop (i + sep)).drop n)

/-! ## Framing lemmas -/

theorem isPrefixOf_append_self (l r : List Nat) : l.isPrefixOf (l ++ r) = true := by
  induction l with
  | nil => simp [List.isPrefixOf]
  | cons a t ih => simp [List.isPrefixOf, ih]

theorem findSub_of_isPrefixOf (pat l : List Nat) (h : pat.isPrefixOf l = true) :
    findSub pat l = some 0 := by
  cases l with
  | nil => rw [findSub, if_pos h]
  | cons a t => rw [findSub, if_pos h]

theorem findSub_cons_of_ne (pat : List Nat) (a : Nat) (t : List Nat)
    (h : pat.isPrefixOf (a :: t) = false) :
    findSub pat (a :: t) = (findSub pat t).map (· + 1) := by
  rw [findSub, if_neg (by simp [h])]

theorem isPrefixOf_cons_ne (a b : Nat) (as bs : List Nat) (h : a ≠ b) :
    (a :: as).isPrefixOf (b :: bs) = false := by
  simp [List.isPrefixOf, h]

theorem natDigits_mem (n : Nat) : ∀ d ∈ natDigits n, 48 ≤ d ∧ d ≤ 57 := by
  induction n using Nat.strong_induction_on with
  | _ n ih =>
    rw [natDigits]
    split
    · next h =>
      intro d hd
      simp only [List.mem_singleton] at hd
      omega
    · next h =>
      intro d hd
      rcases List.mem_append.1 hd with hd | hd
      · exact ih (n / 10) (Nat.div_lt_self (by omega) (by omega)) d hd
      · simp only [List.mem_singleton] at hd
        omega

theorem natDigits_ne_nil (n : Nat) : natDigits n ≠ [] := by
  rw [natDigits]
  split <;> simp

theorem natDigits_foldl (n : Nat) :
    (natDigits n).foldl (fun acc b => acc * 10 + (b - 48)) 0 = n := by
  induction n using Nat.strong_induction_on with
  | _ n ih =>
    rw [natDigits]
    split
    · next h => simp
    · next h =>
      rw [List.foldl_append, ih (n / 10) (Nat.div_lt_self (by omega) (by omega))]
      simp only [List.foldl]
      omega

theorem findSub_append_pat (p xs ys : List Nat) (hx : 13 ∉ xs) :
    findSub (13 :: p) (xs ++ ((13 :: p) ++ ys)) = some xs.length := by
  induction xs with
  | nil =>
    rw [List.nil_append]
    exact findSub_of_isPrefixOf _ _ (isPrefixOf_append_self (13 :: p) ys)
  | cons a t ih =>
    have ha : (13 : Nat) ≠ a := by
      intro h
      exact hx (h ▸ List.mem_cons_self a t)
    calc findSub (13 :: p) ((a :: t) ++ ((13 :: p) ++ ys))
        = findSub (13 :: p) (a :: (t ++ ((13 :: p) ++ ys))) := by rw [List.cons_append]
      _ = (findSub (13 :: p) (t ++ ((13 :: p) ++ ys))).map (· + 1) :=
          findSub_cons_of_ne _ _ _ (isPrefixOf_cons_ne 13 a p _ ha)
      _ = (some t.length).map (· + 1) := by
          rw [ih (fun h => hx (List.mem_cons_of_mem a h))]
      _ = some (a :: t).length := by simp

theorem take_len_append (l₁ l₂ : List Nat) : (l₁ ++ l₂).take l₁.length = l₁ := by
  induction l₁ with
  | nil => rfl
  | cons a t ih => simp [ih]

theorem drop_len_append (l₁ l₂ : List Nat) : (l₁ ++ l₂).drop l₁.length = l₂ := by
  induction l₁ with
  | nil => rfl
  | cons a t ih => simp [ih]

theorem replaceCRLF_eq_self (l : List Nat) (h : 13 ∉ l) : replaceCRLF l = l := by
  induction l with
  | nil => rfl
  | cons a t ih =>
    have ha : a ≠ 13 := fun hh => h (hh ▸ List.mem_cons_self a t)
    have ht : 13 ∉ t := fun hh => h (List.mem_cons_of_mem a hh)
    cases t with
    | nil => rfl
    | cons b r =>
      rw [replaceCRLF, if_neg (fun hab => ha hab.1), ih ht]

theorem splitOnByte_eq_self (c : Nat) (l : List Nat) (h : c ∉ l) :
    splitOnByte c l = [l] := by
  induction l with
  | nil => rfl
  | cons a t ih =>
    have ha : a ≠ c := fun hh => h (hh ▸ List.mem_cons_self a t)
    have ht : c ∉ t := fun hh => h (List.mem_cons_of_mem a hh)
    rw [splitOnByte, if_neg ha, ih ht]

theorem lowerByte_of_digit (d : Nat) (h : 48 ≤ d ∧ d ≤ 57) : lowerByte d = d := by
  unfold lowerByte
  rw [if_neg]
  omega

theorem map_lowerByte_digits (l : List Nat) (h : ∀ d ∈ l, 48 ≤ d ∧ d ≤ 57) :
    l.map lowerByte = l := by
  induction l with
  | nil => rfl
  | cons a t ih =>
    rw [List.map_cons, lowerByte_of_digit a (h a (List.mem_cons_self a t)),
      ih (fun d hd => h d (List.mem_cons_of_mem a hd))]

theorem map_lowerByte_header (n : Nat) :
    (clHeaderBytes ++ natDigits n).map lowerByte = clLowerBytes ++ 32 :: natDigits n := by
  rw [List.map_append, map_lowerByte_digits (natDigits n) (natDigits_mem n),
    show clHeaderBytes.map lowerByte = clLowerBytes ++ [32] by decide,
    List.append_assoc]
  rfl

theorem isSpaceByte_of_digit (d : Nat) (h : 48 ≤ d ∧ d ≤ 57) : isSpaceByte d = false := by
  simp only [isSpaceByte, Bool.or_eq_false_iff, decide_eq_false_iff_not]
  omega

theorem dropWhile_isSpace_digits (l : List Nat) (h : ∀ d ∈ l, 48 ≤ d ∧ d ≤ 57) :
    l.dropWhile isSpaceByte = l := by
  cases l with
  | nil => rfl
  | cons a t =>
    have hfa := isSpaceByte_of_digit a (h a (List.mem_cons_self a t))
    simp [List.dropWhile_cons, hfa]

theorem stripBytes_space_digits (l : List Nat) (h : ∀ d ∈ l, 48 ≤ d ∧ d ≤ 57) :
    stripBytes (32 :: l) = l := by
  unfold stripBytes
  rw [show (32 :: l).dropWhile isSpaceByte = l.dropWhile isSpaceByte by
      simp [List.dropWhile_cons, isSpaceByte]]
  rw [dropWhile_isSpace_digits l h]
  rw [dropWhile_isSpace_digits l.reverse
    (fun d hd => h d (List.mem_reverse.1 hd))]
  exact List.reverse_reverse l

theorem parseNatBytes_natDigits (n : Nat) : parseNatBytes (natDigits n) = some n := by
  have hall : (natDigits n).all isDigitByte = true := by
    rw [List.all_eq_true]
    intro d hd
    have := natDigits_mem n d hd
    simp only [isDigitByte, Bool.and_eq_true, decide_eq_true_eq]
    omega
  unfold parseNatBytes
  rw [if_neg (natDigits_ne_nil n), if_pos hall, natDigits_foldl]

theorem afterColon_header (r : List Nat) : afterColon (clHeaderBytes ++ r) = 32 :: r := rfl

theorem parseContentLength_header (n : Nat) :
    parseContentLength (clHeaderBytes ++ natDigits n) = some n := by
  have hmem := natDigits_mem n
  have h13 : (13 : Nat) ∉ clHeaderBytes ++ natDigits n := by
    intro h
    rcases List.mem_append.1 h with h | h
    · revert h; decide
    · have := hmem _ h; omega
  have h10 : (10 : Nat) ∉ clHeaderBytes ++ natDigits n := by
    intro h
    rcases List.mem_append.1 h with h | h
    · revert h; decide
    · have := hmem _ h; omega
  have hpred : clLowerBytes.isPrefixOf ((clHeaderBytes ++ natDigits n).map lowerByte) = true := by
    rw [map_lowerByte_header]
    exact isPrefixOf_append_self clLowerBytes (32 :: natDigits n)
  unfold parseContentLength
  rw [replaceCRLF_eq_self _ h13, splitOnByte_eq_self _ _ h10]
  simp only [List.find?, hpred]
  rw [afterColon_header, stripBytes_space_digits _ hmem, parseNatBytes_natDigits]

/-- Behaviour of one read against a frame header declaring `n` body bytes,
followed by whatever body bytes became available before the deadline: an
incomplete body is a timeout, a complete one is returned with the surplus
buffered. -/
theorem readMessagePure_writeHead (n : Nat) (avail : List Nat) :
    readMessagePure (writeHead n ++ avail)
      = if avail.length < n then .error .timeout
        else .ok (avail.take n, avail.drop n) := by
  have hhdr13 : (13 : Nat) ∉ clHeaderBytes ++ natDigits n := by
    intro h
    rcases List.mem_append.1 h with h | h
    · revert h; decide
    · have := natDigits_mem n _ h; omega
  have hshape : writeHead n ++ avail
      = (clHeaderBytes ++ natDigits n) ++ (crlfcrlf ++ avail) := by
    simp [writeHead, List.append_assoc]
  have hfind : findSub crlfcrlf ((clHeaderBytes ++ natDigits n) ++ (crlfcrlf ++ avail))
      = some (clHeaderBytes ++ natDigits n).length := by
    simpa [crlfcrlf] using
      findSub_append_pat [10, 13, 10] (clHeaderBytes ++ natDigits n) avail hhdr13
  have htake : ((clHeaderBytes ++ natDigits n) ++ (crlfcrlf ++ avail)).take
      (clHeaderBytes ++ natDigits n).length = clHeaderBytes ++ natDigits n :=
    take_len_append _ _
  have hdrop : ((clHeaderBytes ++ natDigits n) ++ (crlfcrlf ++ avail)).drop
      ((clHeaderBytes ++ natDigits n).length + 4) = avail := by
    rw [show (clHeaderBytes ++ natDigits n) ++ (crlfcrlf ++ avail)
        = ((clHeaderBytes ++ natDigits n) ++ crlfcrlf) ++ avail by
      simp [List.append_assoc]]
    rw [show (clHeaderBytes ++ natDigits n).length + 4
        = ((clHeaderBytes ++ natDigits n) ++ crlfcrlf).length by
      simp [crlfcrlf]
      omega]
    exact drop_len_append _ _
  rw [hshape]
  simp only [readMessagePure, findHeaderEnd, hfind]
  rw [htake, parseContentLength_header]
  simp only [hdrop]

/-! ## Claim theorems for the framed channel -/

/-- C1: round-trip of the framed channel.  Writing a serialized message body
with `McpStdioClient._send` (compact body preceded by a `Content-Length: <n>`
header and a blank-line separator) and reading the resulting byte stream back
with `_read_message` yields exactly the original body bytes, with any bytes
past the message boundary left buffered for the next read.  Since the source
decodes the returned bytes with the inverse of the serializer it wrote them
with, the message-level round-trip follows for every payload. -/
theorem framed_channel_write_read_roundtrip (body extra : List Nat) :
    readMessagePure (writeFrame body ++ extra) = .ok (body, extra) := by
  rw [show writeFrame body ++ extra = writeHead body.length ++ (body ++ extra) by
    simp [writeFrame, List.append_assoc]]
  rw [readMessagePure_writeHead,
    if_neg (by simp only [List.length_append]; omega),
    take_len_append, drop_len_append]

/-- C2: the framed channel never returns a truncated message.  First part:
whenever fewer than the declared `Content-Length` bytes become available
before the deadline (the stream stalls after `avail`), `_read_message` fails
with the Timeout error.  Second part: any successfully returned body has
exactly the length declared by the parsed `Content-Length` header. -/
theorem framed_channel_read_not_truncated :
    (∀ (n : Nat) (avail : List Nat), avail.length < n →
        readMessagePure (writeHead n ++ avail) = .error .timeout) ∧
    (∀ (buf body rest : List Nat), readMessagePure buf = .ok (body, rest) →
        ∃ i sep n, findHeaderEnd buf = some (i, sep) ∧
          parseContentLength (buf.take i) = some n ∧ body.length = n) := by
  constructor
  · intro n avail h
    rw [readMessagePure_writeHead, if_pos h]
  · intro buf body rest h
    cases hfe : findHeaderEnd buf with
    | none =>
      simp only [readMessagePure, hfe] at h
      exact Except.noConfusion h
    | some is =>
      obtain ⟨i, sep⟩ := is
      cases hpc : parseContentLength (buf.take i) with
      | none =>
        simp only [readMessagePure, hfe, hpc] at h
        exact Except.noConfusion h
      | some n =>
        simp only [readMessagePure, hfe, hpc] at h
        by_cases hlen : (buf.drop (i + sep)).length < n
        · rw [if_pos hlen] at h
          exact Except.noConfusion h
        · rw [if_neg hlen] at h
          simp only [Except.ok.injEq, Prod.mk.injEq] at h
          refine ⟨i, sep, n, rfl, hpc, ?_⟩
          rw [← h.1, List.length_take]
          omega

/-- Witness for C2 at concrete inputs: a frame declaring 5 body bytes of
which only 2 arrive times out, and a fully-delivered 2-byte frame returns a
body whose length equals the declared length. -/
theorem framed_channel_read_not_truncated_witness :
    readMessagePure (writeHead 5 ++ [123, 125]) = .error .timeout ∧
    (∃ i sep n, findHeaderEnd (writeFrame [40, 41]) = some (i, sep) ∧
      parseContentLength ((writeFrame [40, 41]).take i) = some n ∧
      ([40, 41] : List Nat).length = n) := by
  constructor
  · exact framed_channel_read_not_truncated.1 5 [123, 125] (by decide)
  · have h2 : readMessagePure (writeFrame [40, 41]) = .ok ([40, 41], []) := by
      show readMessagePure (writeHead 2 ++ [40, 41]) = _
      rw [readMessagePure_writeHead]
      norm_num
    exact framed_channel_read_not_truncated.2 (writeFrame [40, 41]) [40, 41] [] h2

/-! ## JSON values and dictionaries

Payloads crossing the bridge are JSON objects.  `JVal` is the value type and
a dictionary is an association list of string keys (Python dicts preserve
insertion order, so a list is a faithful carrier). -/

inductive JVal where
  | jnull
  | jb (b : Bool)
  | ji (n : Int)
  | js (s : String)
  | jarr (xs : List JVal)
  | jobj (fields : List (String × JVal))

/-- A JSON object, as passed around by the proxy's tool-call layer. -/
abbrev Dict := List (String × JVal)

/-- Python `dict.get(k)`: the value at the first matching key, if any. -/
def lookupKey (d : Dict) (k : String) : Option JVal :=
  (d.find? (fun kv => kv.1 == k)).map (·.2)

/-- Python `k in d`. -/
def hasKey (d : Dict) (k : String) : Bool :=
  (lookupKey d k).isSome

/-! ## Stdio RPC client: response correlation (`McpStdioClient.request`) -/

/-- The guard `msg.get("id") == req_id` of `McpStdioClient.request`: a missing
identifier, a non-numeric identifier, or a different number all fail the
comparison. -/
def idMatches (reqId : Int) (m : Dict) : Bool :=
  match lookupKey m "id" with
  | some (.ji n) => n == reqId
  | _ => false

/-- The read loop of `McpStdioClient.request`: read framed messages in
arrival order, return the first whose identifier equals the request's, and
drop every other message.  `msgs` are the messages that arrive before the
deadline; `none` is the TimeoutError path.  The second component is what is
still unread on the channel when the call returns. -/
def requestLoop (reqId : Int) : List Dict → Option (Dict × List Dict)
  | [] => none
  | m :: rest =>
    if idMatches reqId m then some (m, rest)
    else requestLoop reqId rest

theorem requestLoop_matches (reqId : Int) (msgs : List Dict) (m : Dict) (rest : List Dict)
    (h : requestLoop reqId msgs = some (m, rest)) : idMatches reqId m = true := by
  induction msgs with
  | nil => exact Option.noConfusion h
  | cons m0 t ih =>
    by_cases h0 : idMatches reqId m0
    · rw [requestLoop, if_pos h0] at h
      obtain ⟨h1, _⟩ := Prod.mk.injEq .. ▸ Option.some.injEq .. ▸ h
      · exact h1 ▸ h0
    · rw [requestLoop, if_neg h0] at h
      exact ih h

theorem requestLoop_split (reqId : Int) (msgs : List Dict) (m : Dict) (rest : List Dict)
    (h : requestLoop reqId msgs = some (m, rest)) :
    ∃ pre, msgs = pre ++ m :: rest ∧ ∀ x ∈ pre, idMatches reqId x = false := by
  induction msgs with
  | nil => exact Option.noConfusion h
  | cons m0 t ih =>
    by_cases h0 : idMatches reqId m0
    · rw [requestLoop, if_pos h0] at h
      injection h with h'
      obtain ⟨h1, h2⟩ := Prod.mk.injEq .. ▸ h'
      exact ⟨[], by rw [h1, h2]; rfl, by simp⟩
    · rw [requestLoop, if_neg h0] at h
      obtain ⟨pre, hpre, hall⟩ := ih h
      refine ⟨m0 :: pre, by rw [List.cons_append, hpre], ?_⟩
      intro x hx
      rcases List.mem_cons.1 hx with hx | hx
      · rw [hx]
        exact Bool.eq_false_iff.2 h0
      · exact hall x hx

/-- C3: response correlation of `McpStdioClient.request`.  A successful call
returns the first arriving message whose identifier equals the request's;
every earlier message (different identifier or none) is discarded — the
channel position moves past them, so they are not retrievable later — and a
second request served afterwards on the remaining stream again only ever
receives a message carrying its own identifier, even when the peer's replies
are out of order. -/
theorem rpc_request_response_correlation (reqId : Int) (msgs : List Dict)
    (m : Dict) (rest : List Dict)
    (h : requestLoop reqId msgs = some (m, rest)) :
    idMatches reqId m = true ∧
    (∃ pre, msgs = pre ++ m :: rest ∧ ∀ x ∈ pre, idMatches reqId x = false) ∧
    (∀ (reqId2 : Int) (m2 : Dict) (rest2 : List Dict),
        requestLoop reqId2 rest = some (m2, rest2) → idMatches reqId2 m2 = true) :=
  ⟨requestLoop_matches reqId msgs m rest h,
   requestLoop_split reqId msgs m rest h,
   fun reqId2 m2 rest2 h2 => requestLoop_matches reqId2 rest m2 rest2 h2⟩

/-- Witness for C3: a stray notification and a response for a different
identifier are discarded; request 7 receives the id-7 response, and the
response for id 8 remains for a later request, which receives exactly it. -/
theorem rpc_request_response_correlation_witness :
    idMatches 7 [("id", .ji 7), ("result", .js "r1")] = true ∧
    (∃ pre,
      [([("method", .js "note")] : Dict), [("id", .ji 99)],
        [("id", .ji 7), ("result", .js "r1")], [("id", .ji 8), ("result", .js "r2")]]
        = pre ++ [("id", JVal.ji 7), ("result", JVal.js "r1")]
            :: [[("id", JVal.ji 8), ("result", JVal.js "r2")]] ∧
      ∀ x ∈ pre, idMatches 7 x = false) ∧
    (∀ (reqId2 : Int) (m2 : Dict) (rest2 : List Dict),
        requestLoop reqId2 [[("id", JVal.ji 8), ("result", JVal.js "r2")]]
          = some (m2, rest2) → idMatches reqId2 m2 = true) :=
  rpc_request_response_correlation 7
    [[("method", .js "note")], [("id", .ji 99)],
      [("id", .ji 7), ("result", .js "r1")], [("id", .ji 8), ("result", .js "r2")]]
    [("id", .ji 7), ("result", .js "r1")]
    [[("id", .ji 8), ("result", .js "r2")]] rfl

/-! ## Backend supervisor (`_get_backend`, `_reset_backend`,
`_backend_tool_call_safe`)

The supervisor's global state is the optional cached `AmgMcpBackend` plus a
freshness counter identifying each constructed session by a distinct number
(object identity in the source).  Construction (`AmgMcpBackend.__init__`)
fails when the `initialize` response carries an `error` payload or the
`tools/list` response does; a raised exception leaves the global `_backend`
assignment unexecuted. -/

structure SupState where
  backend : Option Nat
  nextSid : Nat
deriving DecidableEq, Repr

/-- `_reset_backend`: close and clear the cached session if one exists. -/
def resetBackend (s : SupState) : SupState :=
  match s.backend with
  | none => s
  | some _ => { s with backend := none }

/-- `JsonRpcResponse.is_error`: the raw response carries an `error` key. -/
def isErrorResp (raw : Dict) : Bool := hasKey raw "error"

/-- `AmgMcpBackend.__init__` as observed by the supervisor: given the
`initialize` and `tools/list` responses, either a fresh session id or the
message of the `RuntimeError` raised. -/
def mkBackend (initRaw toolsRaw : Dict) (s : SupState) : Except String (Nat × SupState) :=
  if isErrorResp initRaw then .error "amg-mcp initialize failed"
  else if isErrorResp toolsRaw then .error "amg-mcp tools list failed"
  else .ok (s.nextSid, { backend := some s.nextSid, nextSid := s.nextSid + 1 })

/-- `_get_backend`: return the cached session if present, otherwise construct
one and store it only on success (an exception propagates and leaves the
state unchanged). -/
def getOrCreate (initRaw toolsRaw : Dict) (s : SupState) :
    Except String Nat × SupState :=
  match s.backend with
  | some b => (.ok b, s)
  | none =>
    match mkBackend initRaw toolsRaw s with
    | .error e => (.error e, s)
    | .ok (b, s1) => (.ok b, s1)

/-- Outcome of the underlying `backend.tool_call` once a session exists, per
the exception classes `_backend_tool_call_safe` distinguishes. -/
inductive CallOutcome where
  | success (resp : Dict)
  | timeoutErr (msg : String)
  | runtimeErr (msg : String)
  | otherExc (excType msg : String)

/-- `_backend_tool_call_safe`: get-or-create the session, run the call, and
on `TimeoutError`/`RuntimeError` reset the shared session before returning a
tagged failure; any other exception returns a tagged failure without
resetting. -/
def backendToolCallSafe (initRaw toolsRaw : Dict) (outcome : CallOutcome)
    (s : SupState) : Dict × SupState :=
  match getOrCreate initRaw toolsRaw s with
  | (.error e, s1) =>
    -- construction raised RuntimeError: caught, reset (a no-op here), fail.
    ([("ok", .jb false), ("errorType", .js "RuntimeError"), ("error", .js e)],
      resetBackend s1)
  | (.ok _, s1) =>
    match outcome with
    | .success r => (r, s1)
    | .timeoutErr msg =>
      ([("ok", .jb false), ("errorType", .js "TimeoutError"), ("error", .js msg)],
        resetBackend s1)
    | .runtimeErr msg =>
      ([("ok", .jb false), ("errorType", .js "RuntimeError"), ("error", .js msg)],
        resetBackend s1)
    | .otherExc excType msg =>
      ([("ok", .jb false), ("errorType", .js excType), ("error", .js msg)], s1)

/-- C4: supervisor recovery.  With a healthy cached session `b`, a call that
fails with `TimeoutError` (timeout) or `RuntimeError` (transport fault /
channel closed) clears the shared session, and the next get-or-create
constructs a session distinct from `b`; a call failing with any other
exception leaves the cached session untouched, and the next get-or-create
returns `b` itself. -/
theorem supervisor_fault_invalidation (s : SupState) (b : Nat)
    (initR toolsR initG toolsG : Dict) (msg excType : String)
    (hb : s.backend = some b) (hwf : b < s.nextSid)
    (hgi : isErrorResp initG = false) (hgt : isErrorResp toolsG = false) :
    ((backendToolCallSafe initR toolsR (.timeoutErr msg) s).2.backend = none ∧
      (getOrCreate initG toolsG
        (backendToolCallSafe initR toolsR (.timeoutErr msg) s).2).1 = .ok s.nextSid ∧
      s.nextSid ≠ b) ∧
    ((backendToolCallSafe initR toolsR (.runtimeErr msg) s).2.backend = none ∧
      (getOrCreate initG toolsG
        (backendToolCallSafe initR toolsR (.runtimeErr msg) s).2).1 = .ok s.nextSid ∧
      s.nextSid ≠ b) ∧
    ((backendToolCallSafe initR toolsR (.otherExc excType msg) s).2.backend = some b ∧
      (getOrCreate initG toolsG
        (backendToolCallSafe initR toolsR (.otherExc excType msg) s).2).1 = .ok b) := by
  have hne : s.nextSid ≠ b := by omega
  refine ⟨⟨?_, ?_, hne⟩, ⟨?_, ?_, hne⟩, ?_, ?_⟩ <;>
    simp [backendToolCallSafe, getOrCreate, resetBackend, mkBackend, hb, hgi, hgt]

/-- Witness for C4 at a concrete state: session 0 cached, counter at 1. -/
theorem supervisor_fault_invalidation_witness :
    ((backendToolCallSafe [] [] (.timeoutErr "t") ⟨some 0, 1⟩).2.backend = none ∧
      (getOrCreate [] [] (backendToolCallSafe [] [] (.timeoutErr "t") ⟨some 0, 1⟩).2).1
        = .ok 1 ∧ (1 : Nat) ≠ 0) ∧
    ((backendToolCallSafe [] [] (.runtimeErr "t") ⟨some 0, 1⟩).2.backend = none ∧
      (getOrCreate [] [] (backendToolCallSafe [] [] (.runtimeErr "t") ⟨some 0, 1⟩).2).1
        = .ok 1 ∧ (1 : Nat) ≠ 0) ∧
    ((backendToolCallSafe [] [] (.otherExc "ValueError" "v") ⟨some 0, 1⟩).2.backend = some 0 ∧
      (getOrCreate [] [] (backendToolCallSafe [] [] (.otherExc "ValueError" "v") ⟨some 0, 1⟩).2).1
        = .ok 0) :=
  supervisor_fault_invalidation ⟨some 0, 1⟩ 0 [] [] [] [] "t" "ValueError"
    rfl (by decide) rfl rfl

/-- C7: atomicity of session construction.  Starting with no cached session,
a handshake whose `initialize` response carries an error payload, or whose
`tools/list` step fails, makes get-or-create fail, leaves the supervisor
state unchanged (nothing is cached), and the next get-or-create attempts
construction again from scratch — succeeding once given clean responses. -/
theorem session_construction_atomicity (initR toolsR initG toolsG : Dict) (s : SupState)
    (hs : s.backend = none)
    (hfail : isErrorResp initR = true ∨ isErrorResp toolsR = true)
    (hgi : isErrorResp initG = false) (hgt : isErrorResp toolsG = false) :
    (∃ e, (getOrCreate initR toolsR s).1 = .error e) ∧
    (getOrCreate initR toolsR s).2 = s ∧
    (getOrCreate initG toolsG (getOrCreate initR toolsR s).2).1 = .ok s.nextSid := by
  have hstep : getOrCreate initR toolsR s
      = ((if isErrorResp initR then Except.error "amg-mcp initialize failed"
          else Except.error "amg-mcp tools list failed"), s) := by
    rcases hfail with hf | hf
    · simp [getOrCreate, mkBackend, hs, hf]
    · by_cases hi : isErrorResp initR
      · simp [getOrCreate, mkBackend, hs, hi]
      · simp [getOrCreate, mkBackend, hs, hi, hf]
  refine ⟨?_, ?_, ?_⟩
  · rw [hstep]
    by_cases hi : isErrorResp initR
    · exact ⟨"amg-mcp initialize failed", by simp [hi]⟩
    · exact ⟨"amg-mcp tools list failed", by simp [hi]⟩
  · rw [hstep]
  · rw [hstep]
    simp [getOrCreate, mkBackend, hs, hgi, hgt]

/-- Witness for C7: an `initialize` response with an `error` field caches
nothing and the retry with clean responses constructs session 5. -/
theorem session_construction_atomicity_witness :
    (∃ e, (getOrCreate [("error", JVal.js "boom")] [] ⟨none, 5⟩).1 = .error e) ∧
    (getOrCreate [("error", JVal.js "boom")] [] ⟨none, 5⟩).2 = ⟨none, 5⟩ ∧
    (getOrCreate [] [] (getOrCreate [("error", JVal.js "boom")] [] ⟨none, 5⟩).2).1
      = .ok 5 :=
  session_construction_atomicity [("error", .js "boom")] [] [] [] ⟨none, 5⟩
    rfl (Or.inl rfl) rfl rfl

/-! ## Capability filtering (`AmgMcpBackend.tool_call`) -/

/-- Python `dict.get(name)` on the `_tool_supported_keys` registry. -/
def registryLookup (reg : List (String × List String)) (name : String) :
    Option (List String) :=
  (reg.find? (fun kv => kv.1 == name)).map (·.2)

/-- Argument filtering of `AmgMcpBackend.tool_call`: `if supported_keys:`
is Python truthiness, so both a missing registry entry and an empty key set
forward the arguments unfiltered; a non-empty key set keeps exactly the
argument entries whose key is in the set. -/
def forwardedArguments (reg : List (String × List String)) (name : String)
    (args : Dict) : Dict :=
  match registryLookup reg name with
  | some keys =>
    if keys.isEmpty then args
    else args.filter (fun kv => keys.contains kv.1)
  | none => args

/-- C5: capability filtering.  A non-empty registry entry `S` for the
operation makes the forwarded argument map exactly the restriction of the
given arguments to keys in `S`; a missing entry, or the empty key set,
forwards every argument unfiltered. -/
theorem capability_registry_filtering (reg : List (String × List String))
    (name : String) (args : Dict) :
    (∀ keys, registryLookup reg name = some keys →
      (keys ≠ [] →
        forwardedArguments reg name args = args.filter (fun kv => keys.contains kv.1)) ∧
      (keys = [] → forwardedArguments reg name args = args)) ∧
    (registryLookup reg name = none → forwardedArguments reg name args = args) := by
  constructor
  · intro keys hk
    constructor
    · intro hne
      rw [forwardedArguments, hk]
      simp [List.isEmpty_iff, hne]
    · intro he
      rw [forwardedArguments, hk, he]
      rfl
  · intro hn
    rw [forwardedArguments, hn]

/-- Witness for C5, the spec's own example: registry entry `{"a","b"}` with
arguments `{a:1, b:2, c:3}` forwards exactly `{a:1, b:2}`, and an operation
with no registry entry forwards everything. -/
theorem capability_registry_filtering_witness :
    forwardedArguments [("q", ["a", "b"])] "q"
        [("a", JVal.ji 1), ("b", JVal.ji 2), ("c", JVal.ji 3)]
      = [("a", JVal.ji 1), ("b", JVal.ji 2)] ∧
    forwardedArguments [("q", ["a", "b"])] "unknown"
        [("a", JVal.ji 1), ("b", JVal.ji 2), ("c", JVal.ji 3)]
      = [("a", JVal.ji 1), ("b", JVal.ji 2), ("c", JVal.ji 3)] := by
  constructor
  · have h := (capability_registry_filtering [("q", ["a", "b"])] "q"
      [("a", JVal.ji 1), ("b", JVal.ji 2), ("c", JVal.ji 3)]).1 ["a", "b"] rfl
    exact (h.1 (by decide)).trans rfl
  · exact (capability_registry_filtering [("q", ["a", "b"])] "unknown"
      [("a", JVal.ji 1), ("b", JVal.ji 2), ("c", JVal.ji 3)]).2 rfl

/-! ## Datasource-list cache (`_cached_datasource_list`,
`_set_cached_datasource_list`)

Wall-clock instants are rationals (the source uses `time.time()` floats);
`storedAt` is the time `_set_cached_datasource_list` stamped the entry and
`now` the time of the lookup. -/

/-- `_cached_datasource_list` given the configured TTL, the stored entry and
the two time stamps: a non-positive TTL disables the cache, an absent value
or an entry strictly older than the TTL reads as absent. -/
def cachedLookup (ttl : ℚ) (value : Option Dict) (storedAt now : ℚ) : Option Dict :=
  if ttl ≤ 0 then none
  else
    match value with
    | none => none
    | some v => if now - storedAt > ttl then none else some v

/-- C6: result-cache TTL semantics with the default 300-second TTL.  Every
lookup at age at most 299 seconds returns the stored value unchanged, every
lookup at age at least 301 seconds treats the cache as absent, and in general
the entry reads as absent exactly when its age exceeds the TTL. -/
theorem datasource_cache_ttl (v : Dict) (storedAt now : ℚ) :
    (now - storedAt ≤ 299 → cachedLookup 300 (some v) storedAt now = some v) ∧
    (now - storedAt ≥ 301 → cachedLookup 300 (some v) storedAt now = none) ∧
    (cachedLookup 300 (some v) storedAt now = none ↔ now - storedAt > 300) := by
  have h300 : ¬((300 : ℚ) ≤ 0) := by norm_num
  refine ⟨?_, ?_, ?_⟩
  · intro h
    rw [cachedLookup, if_neg h300]
    exact if_neg (by linarith)
  · intro h
    rw [cachedLookup, if_neg h300]
    exact if_pos (by linarith)
  · rw [cachedLookup, if_neg h300]
    by_cases hgt : now - storedAt > 300
    · simp [hgt]
    · simp [hgt]

/-- Witness for C6 at concrete instants: stored at `t = 0`, a lookup at 299
hits, a lookup at 301 misses. -/
theorem datasource_cache_ttl_witness :
    cachedLookup 300 (some []) 0 299 = some [] ∧
    cachedLookup 300 (some []) 0 301 = none :=
  ⟨(datasource_cache_ttl [] 0 299).1 (by norm_num),
   (datasource_cache_ttl [] 0 301).2.1 (by norm_num)⟩

/-! ## Query router for `amgmcp_query_datasource`

The tool first routes Prometheus-looking datasource names through the
Grafana-proxy/AMW chain, then Loki-looking names with a configured
`LOKI_ENDPOINT` through the direct Loki HTTP path, and otherwise delegates
to `_backend_tool_call_safe` (the backend session).  Name matching is the
case-insensitive substring test of `_looks_like_loki_datasource` /
`_looks_like_prometheus_datasource`. -/

/-- First-occurrence substring test (Python `in` on strings/bytes). -/
def containsSub {α : Type} [BEq α] (pat : List α) : List α → Bool
  | [] => pat.isPrefixOf ([] : List α)
  | a :: t => pat.isPrefixOf (a :: t) || containsSub pat t

/-- Python `str.strip()` (whitespace at both ends). -/
def pyStrip (s : List Char) : List Char :=
  ((s.dropWhile Char.isWhitespace).reverse.dropWhile Char.isWhitespace).reverse

/-- Python `str.lower()` (ASCII case folding suffices for these labels). -/
def pyLower (s : List Char) : List Char := s.map Char.toLower

/-- `_looks_like_loki_datasource`: a falsy name never matches; otherwise
match `"loki" in name.strip().lower()`. -/
def looksLikeLokiDatasource (name : Option String) : Bool :=
  match name with
  | none => false
  | some s =>
    if s = "" then false
    else containsSub "loki".data (pyLower (pyStrip s.data))

/-- `_looks_like_prometheus_datasource`: a falsy name never matches;
otherwise match a `"prometheus"` substring or a `"prom ("` /
`"prometheus ("` leading pattern on the stripped, lower-cased name. -/
def looksLikePrometheusDatasource (name : Option String) : Bool :=
  match name with
  | none => false
  | some s =>
    if s = "" then false
    else
      containsSub "prometheus".data (pyLower (pyStrip s.data))
        || "prom (".data.isPrefixOf (pyLower (pyStrip s.data))
        || "prometheus (".data.isPrefixOf (pyLower (pyStrip s.data))

/-- The three routing tiers `amgmcp_query_datasource` can take for a query. -/
inductive QueryRoute where
  | prometheusChain
  | lokiDirect
  | backendDelegate
deriving DecidableEq, Repr

/-- Routing decision of `amgmcp_query_datasource` for a datasource name and
the configured `LOKI_ENDPOINT` (empty string = not configured).  The
`lokiDirect` branch of the source calls only `_loki_query_range` and returns
a `"loki-direct"`-tagged result; the fall-through delegates to
`_backend_tool_call_safe` (the backend session, tier 3). -/
def routeQueryDatasource (dsName : Option String) (lokiEndpoint : String) : QueryRoute :=
  if looksLikePrometheusDatasource dsName then .prometheusChain
  else if looksLikeLokiDatasource dsName && !(lokiEndpoint == "") then .lokiDirect
  else .backendDelegate

/-- Counterexample to C8 as stated: the name `"prometheus loki"` matches
`"loki"` by case-insensitive substring and a direct endpoint is configured,
yet the router takes the Prometheus chain, not the direct Loki path, because
the Prometheus name test is checked first and also matches. -/
theorem loki_routing_claim_counterexample :
    looksLikeLokiDatasource (some "prometheus loki") = true ∧
    ("http://loki.internal" : String) ≠ "" ∧
    routeQueryDatasource (some "prometheus loki") "http://loki.internal"
      ≠ QueryRoute.lokiDirect := by
  refine ⟨by decide, by decide, ?_⟩
  decide

/-- C8 (amended): for every query whose target data-source name matches
`"loki"` by case-insensitive substring and does not match the Prometheus
name pattern, a configured direct endpoint makes the router answer via the
direct Loki HTTP path (never invoking the backend session), and with no
direct endpoint configured the same query delegates to the backend session
(tier 3). -/
theorem loki_routing_direct_vs_backend (name : Option String) (ep : String)
    (hprom : looksLikePrometheusDatasource name = false)
    (hloki : looksLikeLokiDatasource name = true) :
    (ep ≠ "" → routeQueryDatasource name ep = .lokiDirect) ∧
    (ep = "" → routeQueryDatasource name ep = .backendDelegate) := by
  constructor
  · intro hep
    rw [routeQueryDatasource, if_neg (by simp [hprom]), if_pos]
    simp [hloki, hep]
  · intro hep
    rw [routeQueryDatasource, if_neg (by simp [hprom]), if_neg]
    simp [hep]

/-- Witness for the amended C8 at the demo datasource name. -/
theorem loki_routing_direct_vs_backend_witness :
    routeQueryDatasource (some "Loki (grocery)") "http://loki.internal"
      = QueryRoute.lokiDirect ∧
    routeQueryDatasource (some "Loki (grocery)") "" = QueryRoute.backendDelegate :=
  ⟨(loki_routing_direct_vs_backend (some "Loki (grocery)") "http://loki.internal"
      (by decide) (by decide)).1 (by decide),
   (loki_routing_direct_vs_backend (some "Loki (grocery)") ""
      (by decide) (by decide)).2 rfl⟩

/-! ## Environment toggles (`_env_bool`) -/

/-- Lower-cased spellings `_env_bool` accepts as true. -/
def envTrueTokens : List (List Char) :=
  ["1", "true", "t", "yes", "y", "on"].map String.data

/-- Lower-cased spellings `_env_bool` accepts as false. -/
def envFalseTokens : List (List Char) :=
  ["0", "false", "f", "no", "n", "off"].map String.data

/-- `_env_bool(name, default)` applied to the raw environment value (`none`
when the variable is unset): strip and lower-case, recognise the true/false
spellings, otherwise fall back to the default. -/
def envBool (raw : Option String) (dflt : Bool) : Bool :=
  match raw with
  | none => dflt
  | some r =>
    if envTrueTokens.contains (pyLower (pyStrip r.data)) then true
    else if envFalseTokens.contains (pyLower (pyStrip r.data)) then false
    else dflt

/-! ## Datasource listing (`amgmcp_datasource_list`) -/

/-- The synthetic Loki entry the tool fabricates from `LOKI_ENDPOINT`. -/
def lokiEntry (ep : String) : JVal :=
  .jobj [("name", .js "Loki (grocery)"), ("type", .js "loki"), ("url", .js ep)]

/-- The synthetic Prometheus (AMW) entry used in the timeout fallback. -/
def promEntry (ep : String) : JVal :=
  .jobj [("name", .js "Prometheus (AMW)"), ("type", .js "prometheus"), ("url", .js ep)]

/-- The fast minimal list returned when Loki direct access is preferred. -/
def syntheticLokiDatasourceList (ep : String) : Dict :=
  [("ok", .jb true), ("source", .js "loki-direct"),
   ("datasources", .jarr [lokiEntry ep])]

/-- The guard `out.get("ok") is False and out.get("errorType") ==
"TimeoutError"` on a backend reply. -/
def isTimeoutFailure (d : Dict) : Bool :=
  (match lookupKey d "ok" with
    | some (.jb false) => true
    | _ => false)
    && (match lookupKey d "errorType" with
      | some (.js s) => s == "TimeoutError"
      | _ => false)

/-- What one `amgmcp_datasource_list` call produces and does. -/
structure DsListOutcome where
  result : Dict
  backendConsulted : Bool
  cacheWrite : Option Dict

/-- `amgmcp_datasource_list` given the cached entry (if fresh), the
configured `LOKI_ENDPOINT` and `AMW_QUERY_ENDPOINT` (empty = unset), the raw
`PREFER_LOKI_DIRECT_DATASOURCE_LIST` value, and what
`_backend_tool_call_safe` would reply if consulted. -/
def amgmcpDatasourceListModel (cached : Option Dict) (lokiEp amwEp : String)
    (preferRaw : Option String) (backendOut : Dict) : DsListOutcome :=
  match cached with
  | some c => ⟨c, false, none⟩
  | none =>
    if !(lokiEp == "") && envBool preferRaw true then
      ⟨syntheticLokiDatasourceList lokiEp, false, some (syntheticLokiDatasourceList lokiEp)⟩
    else
      -- tier 3: consult the backend, then the direct fallback on timeout.
      if isTimeoutFailure backendOut
          && !(((if !(lokiEp == "") then [lokiEntry lokiEp] else [])
              ++ (if !(amwEp == "") then [promEntry amwEp] else [])).isEmpty) then
        ⟨[("ok", .jb true), ("source", .js "direct-fallback"),
          ("datasources", .jarr ((if !(lokiEp == "") then [lokiEntry lokiEp] else [])
              ++ (if !(amwEp == "") then [promEntry amwEp] else [])))],
          true,
          some [("ok", .jb true), ("source", .js "direct-fallback"),
            ("datasources", .jarr ((if !(lokiEp == "") then [lokiEntry lokiEp] else [])
                ++ (if !(amwEp == "") then [promEntry amwEp] else [])))]⟩
      else
        ⟨backendOut, true, if hasKey backendOut "error" then none else some backendOut⟩

/-- C9: with a configured direct log-store endpoint and the direct-preference
toggle not disabled (its default is on), a datasource-list cache miss never
consults the backend session: it returns the synthetic single-entry list
tagged `"loki-direct"`, whose one entry has type `"loki"` and the configured
endpoint as url, and stores that synthetic result in the cache. -/
theorem datasource_list_loki_direct_synthetic (lokiEp amwEp : String)
    (preferRaw : Option String) (backendOut : Dict)
    (hep : lokiEp ≠ "") (hpref : envBool preferRaw true = true) :
    (amgmcpDatasourceListModel none lokiEp amwEp preferRaw backendOut).backendConsulted
        = false ∧
    (amgmcpDatasourceListModel none lokiEp amwEp preferRaw backendOut).result
        = syntheticLokiDatasourceList lokiEp ∧
    (amgmcpDatasourceListModel none lokiEp amwEp preferRaw backendOut).cacheWrite
        = some (syntheticLokiDatasourceList lokiEp) ∧
    lookupKey (amgmcpDatasourceListModel none lokiEp amwEp preferRaw backendOut).result
        "source" = some (.js "loki-direct") ∧
    lookupKey (amgmcpDatasourceListModel none lokiEp amwEp preferRaw backendOut).result
        "datasources"
      = some (.jarr [.jobj [("name", .js "Loki (grocery)"), ("type", .js "loki"),
          ("url", .js lokiEp)]]) := by
  have hcond : (!(lokiEp == "") && envBool preferRaw true) = true := by
    simp [hpref, hep]
  simp only [amgmcpDatasourceListModel, hcond, if_true]
  refine ⟨?_, ?_, ?_, ?_, ?_⟩ <;> first | rfl | trivial

/-- Witness for C9 with the endpoint configured and the toggle unset. -/
theorem datasource_list_loki_direct_synthetic_witness :
    (amgmcpDatasourceListModel none "http://loki.internal" "" none []).backendConsulted
        = false ∧
    (amgmcpDatasourceListModel none "http://loki.internal" "" none []).result
        = syntheticLokiDatasourceList "http://loki.internal" ∧
    (amgmcpDatasourceListModel none "http://loki.internal" "" none []).cacheWrite
        = some (syntheticLokiDatasourceList "http://loki.internal") ∧
    lookupKey (amgmcpDatasourceListModel none "http://loki.internal" "" none []).result
        "source" = some (.js "loki-direct") ∧
    lookupKey (amgmcpDatasourceListModel none "http://loki.internal" "" none []).result
        "datasources"
      = some (.jarr [.jobj [("name", .js "Loki (grocery)"), ("type", .js "loki"),
          ("url", .js "http://loki.internal")]]) :=
  datasource_list_loki_direct_synthetic "http://loki.internal" "" none []
    (by decide) rfl

/-! ## Image rendering (`amgmcp_image_render`)

Base64 here is the standard alphabet with `=` padding, matching Python's
`base64.b64encode`/`b64decode` on the values the tool handles. -/

/-- Standard base64 alphabet. -/
def b64Alphabet : List Char :=
  "ABCDEFGHIJKLMNOPQRSTUVWXYZabcdefghijklmnopqrstuvwxyz0123456789+/".data

/-- Alphabet character for a 6-bit value. -/
def b64Chr (n : Nat) : Char := b64Alphabet.getD n 'A'

/-- 6-bit value of an alphabet character. -/
def b64CharVal (c : Char) : Nat :=
  if 'A' ≤ c ∧ c ≤ 'Z' then c.toNat - 65
  else if 'a' ≤ c ∧ c ≤ 'z' then c.toNat - 97 + 26
  else if '0' ≤ c ∧ c ≤ '9' then c.toNat - 48 + 52
  else if c = '+' then 62
  else if c = '/' then 63
  else 0

/-- Python `base64.b64encode` over byte values. -/
def b64Encode : List Nat → List Char
  | b1 :: b2 :: b3 :: rest =>
    b64Chr (((b1 % 256) * 65536 + (b2 % 256) * 256 + b3 % 256) / 262144)
      :: b64Chr (((b1 % 256) * 65536 + (b2 % 256) * 256 + b3 % 256) / 4096 % 64)
      :: b64Chr (((b1 % 256) * 65536 + (b2 % 256) * 256 + b3 % 256) / 64 % 64)
      :: b64Chr (((b1 % 256) * 65536 + (b2 % 256) * 256 + b3 % 256) % 64)
      :: b64Encode rest
  | [b1, b2] =>
    [b64Chr ((b1 % 256) / 4), b64Chr ((b1 % 256) % 4 * 16 + (b2 % 256) / 16),
      b64Chr ((b2 % 256) % 16 * 4), '=']
  | [b1] =>
    [b64Chr ((b1 % 256) / 4), b64Chr ((b1 % 256) % 4 * 16), '=', '=']
  | [] => []

/-- Python `base64.b64decode` on well-padded input. -/
def b64Decode : List Char → List Nat
  | c1 :: c2 :: c3 :: c4 :: rest =>
    if c4 = '=' then
      if c3 = '=' then
        [(b64CharVal c1 * 64 + b64CharVal c2) / 16]
      else
        [((b64CharVal c1 * 64 + b64CharVal c2) * 64 + b64CharVal c3) / 1024,
          ((b64CharVal c1 * 64 + b64CharVal c2) * 64 + b64CharVal c3) / 4 % 256]
    else
      (((b64CharVal c1 * 64 + b64CharVal c2) * 64 + b64CharVal c3) * 64 + b64CharVal c4) / 65536
        :: (((b64CharVal c1 * 64 + b64CharVal c2) * 64 + b64CharVal c3) * 64 + b64CharVal c4) / 256 % 256
        :: (((b64CharVal c1 * 64 + b64CharVal c2) * 64 + b64CharVal c3) * 64 + b64CharVal c4) % 256
        :: b64Decode rest
  | _ => []

/-- The fixed placeholder image constant of `amgmcp_image_render`. -/
def placeholderB64 : String :=
  "iVBORw0KGgoAAAANSUhEUgAAAAEAAAABCAQAAAC1HAwCAAAAC0lEQVR42mP8/x8AAwMCAO5N5sYAAAAASUVORK5CYII="

/-- The eight PNG signature bytes. -/
def pngSig : List Nat := [137, 80, 78, 71, 13, 10, 26, 10]

/-- Big-endian 32-bit value of four bytes. -/
def beU32 (bs : List Nat) : Nat := bs.foldl (fun a b => a * 256 + b) 0

/-- A byte string is a well-formed 1x1 PNG: the PNG signature, an `IHDR`
chunk declaring width 1 and height 1, and an `IEND` chunk marker. -/
def isPng1x1 (bs : List Nat) : Bool :=
  pngSig.isPrefixOf bs
    && ((bs.drop 12).take 4 == [73, 72, 68, 82])
    && (beU32 ((bs.drop 16).take 4) == 1)
    && (beU32 ((bs.drop 20).take 4) == 1)
    && containsSub [73, 69, 78, 68] bs

/-- The remediation hint attached when direct rendering fails. -/
def renderHint : String :=
  "Azure Managed Grafana may not allow AAD-authenticated access to the /render endpoint in all configurations. This proxy can return a placeholder image (ENABLE_PLACEHOLDER_IMAGE_RENDER=true) to keep connector flows reliable."

/-- The `warning` payload built from the caught exception. -/
def renderWarning (excType excMsg : String) : Dict :=
  [("errorType", .js excType), ("error", .js excMsg), ("hint", .js renderHint)]

/-- What one `amgmcp_image_render` call produces and does. -/
structure RenderOutcome where
  result : Dict
  backendConsulted : Bool

/-- `amgmcp_image_render` downstream of argument assembly: either the direct
Grafana render produced PNG bytes, or it raised an exception of some type and
message; `placeholderRaw` and `fallbackRaw` are the raw values of
`ENABLE_PLACEHOLDER_IMAGE_RENDER` and `ENABLE_AMG_MCP_RENDER_FALLBACK`, and
`backendOut` is what the stdio fallback would reply if consulted. -/
def amgmcpImageRenderModel (renderResult : Except (String × String) (List Nat))
    (placeholderRaw fallbackRaw : Option String) (backendOut : Dict) : RenderOutcome :=
  match renderResult with
  | .ok png =>
    ⟨[("ok", .jb true), ("source", .js "grafana-direct"), ("contentType", .js "image/png"),
      ("imageBase64", .js (String.mk (b64Encode png))), ("bytes", .ji png.length)], false⟩
  | .error (excType, excMsg) =>
    if envBool placeholderRaw true then
      ⟨[("ok", .jb true), ("source", .js "placeholder"), ("contentType", .js "image/png"),
        ("imageBase64", .js placeholderB64),
        ("bytes", .ji (b64Decode placeholderB64.data).length),
        ("warning", .jobj (renderWarning excType excMsg))], false⟩
    else
      if envBool fallbackRaw false then
        ⟨([("ok", .jb false), ("source", .js "grafana-direct")]
            ++ renderWarning excType excMsg)
          ++ [("backend", .jobj backendOut)], true⟩
      else
        ⟨[("ok", .jb false), ("source", .js "grafana-direct")]
            ++ renderWarning excType excMsg, false⟩

/-- C10: placeholder rendering.  When the direct image-render path fails for
any reason and the placeholder toggle is not disabled (its default is on),
the render call still reports success: the result carries `ok = true`,
source tag `"placeholder"`, the fixed base64 payload — which decodes to a
valid 1x1 PNG — and the underlying error type, message and hint under the
`warning` field; the stdio backend is not consulted. -/
theorem image_render_placeholder_on_failure (excType excMsg : String)
    (placeholderRaw fallbackRaw : Option String) (backendOut : Dict)
    (hpl : envBool placeholderRaw true = true) :
    (amgmcpImageRenderModel (.error (excType, excMsg)) placeholderRaw fallbackRaw
        backendOut).backendConsulted = false ∧
    lookupKey (amgmcpImageRenderModel (.error (excType, excMsg)) placeholderRaw
        fallbackRaw backendOut).result "ok" = some (.jb true) ∧
    lookupKey (amgmcpImageRenderModel (.error (excType, excMsg)) placeholderRaw
        fallbackRaw backendOut).result "source" = some (.js "placeholder") ∧
    lookupKey (amgmcpImageRenderModel (.error (excType, excMsg)) placeholderRaw
        fallbackRaw backendOut).result "imageBase64" = some (.js placeholderB64) ∧
    lookupKey (amgmcpImageRenderModel (.error (excType, excMsg)) placeholderRaw
        fallbackRaw backendOut).result "warning"
      = some (.jobj [("errorType", .js excType), ("error", .js excMsg),
          ("hint", .js renderHint)]) ∧
    isPng1x1 (b64Decode placeholderB64.data) = true := by
  simp only [amgmcpImageRenderModel, hpl, if_true]
  refine ⟨?_, ?_, ?_, ?_, ?_, ?_⟩ <;> trivial

/-- Witness for C10 at a concrete failure with the toggle unset. -/
theorem image_render_placeholder_on_failure_witness :
    (amgmcpImageRenderModel (.error ("HTTPError", "403 Forbidden")) none none
        []).backendConsulted = false ∧
    lookupKey (amgmcpImageRenderModel (.error ("HTTPError", "403 Forbidden")) none
        none []).result "ok" = some (.jb true) ∧
    lookupKey (amgmcpImageRenderModel (.error ("HTTPError", "403 Forbidden")) none
        none []).result "source" = some (.js "placeholder") ∧
    lookupKey (amgmcpImageRenderModel (.error ("HTTPError", "403 Forbidden")) none
        none []).result "imageBase64" = some (.js placeholderB64) ∧
    lookupKey (amgmcpImageRenderModel (.error ("HTTPError", "403 Forbidden")) none
        none []).result "warning"
      = some (.jobj [("errorType", .js "HTTPError"), ("error", .js "403 Forbidden"),
          ("hint", .js renderHint)]) ∧
    isPng1x1 (b64Decode placeholderB64.data) = true :=
  image_render_placeholder_on_failure "HTTPError" "403 Forbidden" none none [] rfl

end AmgProxy
